import Mathlib

/-!
Verification of the minute-bucketed traffic-aggregation core of `map.js`
(`minutesSinceMidnight`, `filterByMinute`, `computeStationTraffic`, and the
bucket-building `trips.forEach` loop), as a shallow embedding in Lean.
-/

set_option maxRecDepth 20000

namespace BikeTraffic

/-- A JavaScript `Date` as observed by `minutesSinceMidnight` in `map.js`:
`getHours()` / `getMinutes()` either return the wall-clock hour and minute
fields, or `NaN` when the `Date` is invalid (unparsable timestamp). -/
inductive JSDate where
  | invalid : JSDate
  | time : Nat → Nat → JSDate
deriving DecidableEq

/-- `minutesSinceMidnight(date)` from `map.js`:
`date.getHours() * 60 + date.getMinutes()`.  `none` models the `NaN`
produced when the date is invalid. -/
def minutesSinceMidnight : JSDate → Option Nat
  | .invalid => none
  | .time h m => some (h * 60 + m)

/-- A trip record as consumed by the aggregation core of `map.js`. -/
structure Trip where
  start_station_id : String
  end_station_id : String
  started_at : JSDate
  ended_at : JSDate
deriving DecidableEq

/-- A station record: its `short_name` identifier plus its other attributes. -/
structure Station where
  short_name : String
  lat : Int
  lon : Int
deriving DecidableEq

/-- The record `{...station, departures, arrivals, totalTraffic}` produced by
`computeStationTraffic`: the original station attributes together with the
three traffic counts. -/
structure StationWithTraffic where
  station : Station
  departures : Nat
  arrivals : Nat
  totalTraffic : Nat
deriving DecidableEq

/-- Default record used only as the fallback argument of `List.getD`. -/
def dummyRecord : StationWithTraffic := ⟨⟨"", 0, 0⟩, 0, 0, 0⟩

/-- `filterByMinute(tripsByMinute, minute)` from `map.js`.  The JS `%`
operator on integers truncates toward zero, which is `Int.tmod`;
`slice(a)` is `List.drop a`, `slice(0, b)` is `List.take b`,
`slice(a, b)` is `drop a` of `take b`, and `flat()` is `List.flatten`. -/
def filterByMinute (tripsByMinute : List (List Trip)) (minute : Int) : List Trip :=
  if minute = -1 then
    tripsByMinute.flatten
  else
    let minMinute := ((minute - 60 + 1440).tmod 1440).toNat
    let maxMinute := ((minute + 60).tmod 1440).toNat
    if minMinute > maxMinute then
      let beforeMidnight := tripsByMinute.drop minMinute
      let afterMidnight := tripsByMinute.take maxMinute
      (beforeMidnight ++ afterMidnight).flatten
    else
      ((tripsByMinute.take maxMinute).drop minMinute).flatten

/-- `computeStationTraffic(stations, timeFilter)` from `map.js`, with the two
module-level bucket tables passed explicitly.  `d3.rollup(trips, v => v.length,
key)` followed by `.get(id) ?? 0` yields, for each id, the number of trips of
the rolled-up list whose key field equals that id (0 when no trip does). -/
def computeStationTraffic (departuresByMinute arrivalsByMinute : List (List Trip))
    (stations : List Station) (timeFilter : Int) : List StationWithTraffic :=
  let departures := filterByMinute departuresByMinute timeFilter
  let arrivals := filterByMinute arrivalsByMinute timeFilter
  stations.map fun station =>
    let id := station.short_name
    let depCount := (departures.filter fun d => d.start_station_id = id).length
    let arrCount := (arrivals.filter fun d => d.end_station_id = id).length
    { station := station
      departures := depCount
      arrivals := arrCount
      totalTraffic := depCount + arrCount }

/-- The two module-level bucket tables of `map.js`. -/
structure BucketState where
  departuresByMinute : List (List Trip)
  arrivalsByMinute : List (List Trip)
deriving DecidableEq

/-- `Array.from({length: 1440}, () => [])`, once for each table. -/
def initState : BucketState :=
  ⟨List.replicate 1440 [], List.replicate 1440 []⟩

/-- One JS statement `tbl[idx].push(trip)`.  When `idx` is `NaN` (`none` here)
or outside the table's index range, `tbl[idx]` is `undefined` and the `.push`
raises a `TypeError`, modelled by `none`; otherwise the trip is appended to
slot `idx`. -/
def pushBucket (tbl : List (List Trip)) (idx : Option Nat) (t : Trip) :
    Option (List (List Trip)) :=
  match idx with
  | none => none
  | some i => if i < tbl.length then some (tbl.set i (tbl.getD i [] ++ [t])) else none

/-- Outcome of the bucket-building `trips.forEach` loop: either it ran to
completion, or a `TypeError` escaped with the tables left in the given
(partially updated) state. -/
inductive BucketResult where
  | ok : BucketState → BucketResult
  | thrown : BucketState → BucketResult
deriving DecidableEq

/-- The `trips.forEach` bucket-building loop of `map.js`: for each trip push it
into the departure bucket of its start minute and then the arrival bucket of
its end minute; an exception from either push aborts the loop, keeping any
pushes already performed. -/
def buildBuckets : List Trip → BucketState → BucketResult
  | [], st => .ok st
  | trip :: rest, st =>
    match pushBucket st.departuresByMinute (minutesSinceMidnight trip.started_at) trip with
    | none => .thrown st
    | some dep =>
      match pushBucket st.arrivalsByMinute (minutesSinceMidnight trip.ended_at) trip with
      | none => .thrown ⟨dep, st.arrivalsByMinute⟩
      | some arr => buildBuckets rest ⟨dep, arr⟩

/-- One slider-driven recomputation (the body of `updateScatterPlot` in
`map.js`) as an explicit state transformer over the ambient bucket tables:
it recomputes the station traffic and contains no write to either table. -/
def querySession (st : BucketState) (stations : List Station) (timeFilter : Int) :
    List StationWithTraffic × BucketState :=
  (computeStationTraffic st.departuresByMinute st.arrivalsByMinute stations timeFilter, st)

/-- Both timestamps of a trip yield a minute-of-day that is a valid index into
the 1440-slot bucket tables. -/
def validMinute (d : JSDate) : Bool :=
  match minutesSinceMidnight d with
  | some i => i < 1440
  | none => false

/-- A trip whose two timestamps both yield valid bucket indices. -/
def validTrip (t : Trip) : Bool :=
  validMinute t.started_at && validMinute t.ended_at

/-- The spec's "concatenation of buckets in index range `[a, b)`", stated by
indexed access rather than by slicing. -/
def concatRange (buckets : List (List Trip)) (a b : Nat) : List Trip :=
  ((List.range' a (b - a)).map fun i => buckets.getD i []).flatten

/-- The Window Query contract exactly as the spec words it: for the sentinel,
all 1440 buckets in index order; otherwise `minMinute = (centerMinute - 60 +
1440) mod 1440` and `maxMinute = (centerMinute + 60) mod 1440`, with the
buckets `[minMinute, maxMinute)`, or `[minMinute, 1440)` followed by
`[0, maxMinute)` when the window crosses midnight. -/
def filterByMinuteSpec (buckets : List (List Trip)) (minute : Int) : List Trip :=
  if minute = -1 then concatRange buckets 0 1440
  else
    let c := minute.toNat
    let minMinute := (c + 1440 - 60) % 1440
    let maxMinute := (c + 60) % 1440
    if minMinute ≤ maxMinute then concatRange buckets minMinute maxMinute
    else concatRange buckets minMinute 1440 ++ concatRange buckets 0 maxMinute

/-- The bucket indices traversed by the filtered branch of `filterByMinute`:
the indices of the slices it concatenates, in traversal order. -/
def windowIndices (minute : Int) : List Nat :=
  let minMinute := ((minute - 60 + 1440).tmod 1440).toNat
  let maxMinute := ((minute + 60).tmod 1440).toNat
  if minMinute > maxMinute then
    List.range' minMinute (1440 - minMinute) ++ List.range' 0 maxMinute
  else
    List.range' minMinute (maxMinute - minMinute)

/-! ### Slice and arithmetic helper lemmas -/

/-- A slice `drop a (take b l)` of a list, read off element by element. -/
lemma drop_take_eq_map_range {α : Type} (l : List α) (d : α) (a b : Nat)
    (hb : b ≤ l.length) :
    (l.take b).drop a = (List.range' a (b - a)).map fun i => l.getD i d := by
  apply List.ext_getElem
  · simp only [List.length_drop, List.length_take, List.length_map, List.length_range']
    omega
  · intro n h1 h2
    have hn : n < b - a := by
      simpa using h2
    have hna : a + n < l.length := by omega
    rw [List.getElem_drop, List.getElem_take, List.getElem_map, List.getElem_range',
      List.getD_eq_getElem l d (by simpa using hna)]
    simp

/-- The truncating-remainder computation of `filterByMinute` agrees with the
spec's nonnegative modulus formulas on the slider's range. -/
lemma minMax_toNat (minute : Int) (h0 : 0 ≤ minute) (h1 : minute ≤ 1439) :
    ((minute - 60 + 1440).tmod 1440).toNat = (minute.toNat + 1440 - 60) % 1440 ∧
    ((minute + 60).tmod 1440).toNat = (minute.toNat + 60) % 1440 := by
  rw [Int.tmod_eq_emod (by omega) (by omega), Int.tmod_eq_emod (by omega) (by omega)]
  omega

/-- `filterByMinute` computes exactly the window the spec describes, for the
sentinel and for every slider minute. -/
lemma filterByMinute_eq_spec (buckets : List (List Trip)) (minute : Int)
    (hl : buckets.length = 1440)
    (hm : minute = -1 ∨ 0 ≤ minute ∧ minute ≤ 1439) :
    filterByMinute buckets minute = filterByMinuteSpec buckets minute := by
  rcases hm with rfl | ⟨h0, h1⟩
  · show buckets.flatten = concatRange buckets 0 1440
    rw [concatRange, ← drop_take_eq_map_range buckets [] 0 1440 (by omega)]
    simp [← hl]
  · have hne : minute ≠ -1 := by omega
    obtain ⟨hmn, hmx⟩ := minMax_toNat minute h0 h1
    rw [filterByMinute, filterByMinuteSpec, if_neg hne, if_neg hne]
    simp only [hmn, hmx]
    have hmxlt : (minute.toNat + 60) % 1440 < 1440 := by omega
    have hmnlt : (minute.toNat + 1440 - 60) % 1440 < 1440 := by omega
    by_cases hgt : (minute.toNat + 1440 - 60) % 1440 > (minute.toNat + 60) % 1440
    · rw [if_pos hgt, if_neg (by omega)]
      have htake : buckets.take 1440 = buckets := by
        rw [← hl]
        exact List.take_length buckets
      rw [concatRange, concatRange,
        ← drop_take_eq_map_range buckets [] _ 1440 (by omega),
        ← drop_take_eq_map_range buckets [] 0 _ (by omega),
        List.flatten_append, htake, List.drop_zero]
    · rw [if_neg hgt, if_pos (by omega)]
      rw [concatRange, ← drop_take_eq_map_range buckets [] _ _ (by omega)]

/-- C1: `filterByMinute` satisfies the Window Query contract: for the sentinel
`-1` it returns the concatenation of all 1440 buckets in bucket-index order;
for any `centerMinute` in `[0, 1439]`, with `minMinute = (centerMinute - 60 +
1440) mod 1440` and `maxMinute = (centerMinute + 60) mod 1440`, it returns the
concatenation of buckets `[minMinute, maxMinute)` when `minMinute ≤ maxMinute`,
and the concatenation of buckets `[minMinute, 1440)` followed by buckets
`[0, maxMinute)` when `minMinute > maxMinute`. -/
theorem filterByMinute_contract (buckets : List (List Trip)) (minute : Int)
    (hl : buckets.length = 1440)
    (hm : minute = -1 ∨ 0 ≤ minute ∧ minute ≤ 1439) :
    filterByMinute buckets minute = filterByMinuteSpec buckets minute :=
  filterByMinute_eq_spec buckets minute hl hm

/-- Witness for C1 at a concrete table and minute. -/
theorem filterByMinute_contract_witness :
    filterByMinute (List.replicate 1440 []) 700 =
      filterByMinuteSpec (List.replicate 1440 []) 700 :=
  filterByMinute_contract (List.replicate 1440 []) 700 (by simp)
    (Or.inr ⟨by norm_num, by norm_num⟩)

/-- A prefix `take b` of a list, read off by indexed access. -/
lemma take_eq_map_range {α : Type} (l : List α) (d : α) (b : Nat) (hb : b ≤ l.length) :
    l.take b = (List.range' 0 b).map fun i => l.getD i d := by
  have h := drop_take_eq_map_range l d 0 b hb
  simpa using h

/-- A suffix `drop a` of a list, read off by indexed access. -/
lemma drop_eq_map_range {α : Type} (l : List α) (d : α) (a : Nat) :
    l.drop a = (List.range' a (l.length - a)).map fun i => l.getD i d := by
  have h := drop_take_eq_map_range l d a l.length le_rfl
  rwa [List.take_length] at h

/-- C3 (amended): on a 1440-slot table, `filterByMinute(buckets, 0)` returns
buckets `1380` through `1439` followed by `0` through `59`, and
`filterByMinute(buckets, 1439)` returns buckets `1379` through `1439` followed
by `0` through `58` — `minMinute` inclusive and `maxMinute` exclusive, so for
`centerMinute = 1439` the bucket at the exclusive bound `maxMinute = 59` is
not part of the window. -/
theorem filterByMinute_boundary (buckets : List (List Trip))
    (hl : buckets.length = 1440) :
    filterByMinute buckets 0 =
      concatRange buckets 1380 1440 ++ concatRange buckets 0 60 ∧
    filterByMinute buckets 1439 =
      concatRange buckets 1379 1440 ++ concatRange buckets 0 59 := by
  constructor
  · rw [filterByMinute_eq_spec buckets 0 hl (Or.inr ⟨by norm_num, by norm_num⟩)]
    rfl
  · rw [filterByMinute_eq_spec buckets 1439 hl (Or.inr ⟨by norm_num, by norm_num⟩)]
    rfl

/-- Witness for C3 at a concrete table. -/
theorem filterByMinute_boundary_witness :
    filterByMinute (List.replicate 1440 []) 0 =
      concatRange (List.replicate 1440 []) 1380 1440 ++
        concatRange (List.replicate 1440 []) 0 60 ∧
    filterByMinute (List.replicate 1440 []) 1439 =
      concatRange (List.replicate 1440 []) 1379 1440 ++
        concatRange (List.replicate 1440 []) 0 59 :=
  filterByMinute_boundary (List.replicate 1440 []) (by rw [List.length_replicate])

/-- A trip sitting in bucket 59 of a 1440-slot table. -/
def cexTrip : Trip := ⟨"A", "B", .time 0 59, .time 1 0⟩

/-- A 1440-slot table whose only trip sits in bucket 59. -/
def cexBuckets : List (List Trip) :=
  (List.range 1440).map fun i => if i = 59 then [cexTrip] else []

/-- C3 counterexample: the claim says `filterByMinute(buckets, 1439)` includes
buckets `0` through `59`, but the trip in bucket `59` of this concrete table is
not in the returned window, because `maxMinute = 59` is exclusive. -/
theorem filterByMinute_boundary_cex :
    cexTrip ∈ cexBuckets.getD 59 [] ∧ cexTrip ∉ filterByMinute cexBuckets 1439 := by
  decide

/-- C5: for every `centerMinute` in `[0, 1439]`, `filterByMinute` concatenates
the trips of exactly the bucket indices in `windowIndices centerMinute`, and
that index set has exactly 120 distinct elements, in both the non-wrapping and
the midnight-wrapping case. -/
theorem windowIndices_card (buckets : List (List Trip)) (minute : Int)
    (hl : buckets.length = 1440) (h0 : 0 ≤ minute) (h1 : minute ≤ 1439) :
    filterByMinute buckets minute =
      ((windowIndices minute).map fun i => buckets.getD i []).flatten ∧
    (windowIndices minute).Nodup ∧ (windowIndices minute).length = 120 := by
  obtain ⟨hmn, hmx⟩ := minMax_toNat minute h0 h1
  have hne : minute ≠ -1 := by omega
  refine ⟨?_, ?_, ?_⟩
  · rw [filterByMinute, windowIndices, if_neg hne]
    simp only [hmn, hmx]
    by_cases hgt : (minute.toNat + 1440 - 60) % 1440 > (minute.toNat + 60) % 1440
    · rw [if_pos hgt, if_pos hgt, List.map_append, List.flatten_append,
        drop_eq_map_range buckets [] _, take_eq_map_range buckets [] _ (by omega), hl,
        List.flatten_append]
    · rw [if_neg hgt, if_neg hgt,
        drop_take_eq_map_range buckets [] _ _ (by omega)]
  · rw [windowIndices]
    simp only [hmn, hmx]
    by_cases hgt : (minute.toNat + 1440 - 60) % 1440 > (minute.toNat + 60) % 1440
    · rw [if_pos hgt]
      refine List.Nodup.append (List.nodup_range' _ _) (List.nodup_range' _ _) ?_
      intro x hx hx2
      rw [List.mem_range'] at hx hx2
      obtain ⟨i, hi, rfl⟩ := hx
      obtain ⟨j, hj, hEq⟩ := hx2
      omega
    · rw [if_neg hgt]
      exact List.nodup_range' _ _
  · rw [windowIndices]
    simp only [hmn, hmx]
    by_cases hgt : (minute.toNat + 1440 - 60) % 1440 > (minute.toNat + 60) % 1440
    · rw [if_pos hgt]
      simp only [List.length_append, List.length_range']
      omega
    · rw [if_neg hgt]
      simp only [List.length_range']
      omega

/-- Witness for C5 at a concrete table and minute. -/
theorem windowIndices_card_witness :
    filterByMinute (List.replicate 1440 []) 700 =
      ((windowIndices 700).map fun i => (List.replicate 1440 []).getD i []).flatten ∧
    (windowIndices 700).Nodup ∧ (windowIndices 700).length = 120 :=
  windowIndices_card (List.replicate 1440 []) 700 (by rw [List.length_replicate])
    (by norm_num) (by norm_num)

/-- The aggregator maps each input station to a derived record containing the
original station attributes, in input order. -/
lemma computeStationTraffic_map_station (dep arr : List (List Trip))
    (stations : List Station) (tf : Int) :
    (computeStationTraffic dep arr stations tf).map StationWithTraffic.station
      = stations := by
  simp [computeStationTraffic, List.map_map]
  exact List.map_id stations

/-- C4: for every station list and every time filter, `computeStationTraffic`
returns exactly one output record per input station, in input order; every
record has `totalTraffic = departures + arrivals`; and a station with no
matching trips is retained with all three counts equal to 0. -/
theorem computeStationTraffic_shape (dep arr : List (List Trip))
    (stations : List Station) (tf : Int) :
    (computeStationTraffic dep arr stations tf).map StationWithTraffic.station
        = stations ∧
    (computeStationTraffic dep arr stations tf).length = stations.length ∧
    (∀ r ∈ computeStationTraffic dep arr stations tf,
      r.totalTraffic = r.departures + r.arrivals) ∧
    (∀ r ∈ computeStationTraffic dep arr stations tf,
      (∀ t ∈ filterByMinute dep tf, t.start_station_id ≠ r.station.short_name) →
      (∀ t ∈ filterByMinute arr tf, t.end_station_id ≠ r.station.short_name) →
      r.departures = 0 ∧ r.arrivals = 0 ∧ r.totalTraffic = 0) := by
  refine ⟨computeStationTraffic_map_station dep arr stations tf, ?_, ?_, ?_⟩
  · simp [computeStationTraffic]
  · intro r hr
    simp only [computeStationTraffic, List.mem_map] at hr
    obtain ⟨s, _, rfl⟩ := hr
    rfl
  · intro r hr hd ha
    simp only [computeStationTraffic, List.mem_map] at hr
    obtain ⟨s, _, rfl⟩ := hr
    have h1 : (filterByMinute dep tf).filter
        (fun d => d.start_station_id = s.short_name) = [] := by
      rw [List.filter_eq_nil_iff]
      intro t ht
      simpa using hd t ht
    have h2 : (filterByMinute arr tf).filter
        (fun d => d.end_station_id = s.short_name) = [] := by
      rw [List.filter_eq_nil_iff]
      intro t ht
      simpa using ha t ht
    simp [h1, h2]

/-- Witness for C4 at a concrete table, station list and filter. -/
theorem computeStationTraffic_shape_witness :
    (computeStationTraffic (List.replicate 1440 []) (List.replicate 1440 [])
        [⟨"A", 0, 0⟩] 700).map StationWithTraffic.station = [⟨"A", 0, 0⟩] ∧
    (computeStationTraffic (List.replicate 1440 []) (List.replicate 1440 [])
        [⟨"A", 0, 0⟩] 700).length = [(⟨"A", 0, 0⟩ : Station)].length ∧
    (∀ r ∈ computeStationTraffic (List.replicate 1440 []) (List.replicate 1440 [])
        [⟨"A", 0, 0⟩] 700, r.totalTraffic = r.departures + r.arrivals) ∧
    (∀ r ∈ computeStationTraffic (List.replicate 1440 []) (List.replicate 1440 [])
        [⟨"A", 0, 0⟩] 700,
      (∀ t ∈ filterByMinute (List.replicate 1440 []) 700,
        t.start_station_id ≠ r.station.short_name) →
      (∀ t ∈ filterByMinute (List.replicate 1440 []) 700,
        t.end_station_id ≠ r.station.short_name) →
      r.departures = 0 ∧ r.arrivals = 0 ∧ r.totalTraffic = 0) :=
  computeStationTraffic_shape (List.replicate 1440 []) (List.replicate 1440 [])
    [⟨"A", 0, 0⟩] 700

/-- C8: a slider-driven recomputation reads but never writes the bucket
tables, so running the same query again immediately afterwards — same station
list, same time filter, same bucket-table contents — produces the identical
output and leaves the tables identical. -/
theorem querySession_idempotent (st : BucketState) (stations : List Station)
    (tf : Int) :
    (querySession ((querySession st stations tf).2) stations tf).1 =
      (querySession st stations tf).1 ∧
    (querySession ((querySession st stations tf).2) stations tf).2 =
      (querySession st stations tf).2 :=
  ⟨rfl, rfl⟩

/-- C9: a query pass returns the ambient bucket tables unchanged, and its
output is a list of fresh derived records each containing the corresponding
original station record unmodified. -/
theorem querySession_frame (st : BucketState) (stations : List Station)
    (tf : Int) :
    (querySession st stations tf).2 = st ∧
    ((querySession st stations tf).1).map StationWithTraffic.station = stations :=
  ⟨rfl, computeStationTraffic_map_station st.departuresByMinute
    st.arrivalsByMinute stations tf⟩

/-! ### Bucket-building lemmas -/

/-- A successful push appends the trip to the addressed slot. -/
lemma pushBucket_some (tbl tbl' : List (List Trip)) (idx : Option Nat) (t : Trip)
    (h : pushBucket tbl idx t = some tbl') :
    ∃ i, idx = some i ∧ i < tbl.length ∧
      tbl' = tbl.set i (tbl.getD i [] ++ [t]) := by
  cases idx with
  | none => exact absurd h (by simp [pushBucket])
  | some i =>
    by_cases hi : i < tbl.length
    · refine ⟨i, rfl, hi, ?_⟩
      have h2 : some (tbl.set i (tbl.getD i [] ++ [t])) = some tbl' := by
        simpa [pushBucket, hi] using h
      exact (Option.some_inj.mp h2).symm
    · simp [pushBucket, hi] at h

/-- Appending a trip to one slot appends it, up to order, to the flattened
table. -/
lemma flatten_set_push (l : List (List Trip)) (i : Nat) (x : Trip)
    (h : i < l.length) :
    ((l.set i (l.getD i [] ++ [x])).flatten).Perm (l.flatten ++ [x]) := by
  induction l generalizing i with
  | nil => simp at h
  | cons a tl ih =>
    cases i with
    | zero =>
      simp only [List.set_cons_zero, List.getD_cons_zero, List.flatten_cons,
        List.append_assoc]
      exact List.Perm.append_left a List.perm_append_comm
    | succ n =>
      have hn : n < tl.length := by simpa using h
      simp only [List.set_cons_succ, List.getD_cons_succ, List.flatten_cons,
        List.append_assoc]
      exact List.Perm.append_left a (by simpa using ih n hn)

/-- A completed bucket-building run distributes exactly the processed trips
over the two tables: each flattened table gains the trip list, up to order. -/
lemma buildBuckets_flatten_perm (trips : List Trip) (st st' : BucketState)
    (h : buildBuckets trips st = .ok st') :
    st'.departuresByMinute.flatten.Perm (st.departuresByMinute.flatten ++ trips) ∧
    st'.arrivalsByMinute.flatten.Perm (st.arrivalsByMinute.flatten ++ trips) := by
  induction trips generalizing st with
  | nil =>
    cases h
    constructor <;> simp
  | cons t rest ih =>
    rw [buildBuckets] at h
    cases hd : pushBucket st.departuresByMinute (minutesSinceMidnight t.started_at) t with
    | none => rw [hd] at h; cases h
    | some dep =>
      rw [hd] at h
      cases ha : pushBucket st.arrivalsByMinute (minutesSinceMidnight t.ended_at) t with
      | none => rw [ha] at h; cases h
      | some arr =>
        rw [ha] at h
        obtain ⟨ih1, ih2⟩ := ih ⟨dep, arr⟩ h
        obtain ⟨i, _, hi, rfl⟩ := pushBucket_some _ _ _ _ hd
        obtain ⟨j, _, hj, rfl⟩ := pushBucket_some _ _ _ _ ha
        constructor
        · refine ih1.trans ?_
          refine (List.Perm.append_right rest (flatten_set_push _ i t hi)).trans ?_
          rw [List.append_assoc, List.singleton_append]
        · refine ih2.trans ?_
          refine (List.Perm.append_right rest (flatten_set_push _ j t hj)).trans ?_
          rw [List.append_assoc, List.singleton_append]

/-- Running the loop over a concatenation first runs it over the prefix. -/
lemma buildBuckets_append (l1 l2 : List Trip) (st st1 : BucketState)
    (h : buildBuckets l1 st = .ok st1) :
    buildBuckets (l1 ++ l2) st = buildBuckets l2 st1 := by
  induction l1 generalizing st with
  | nil => cases h; rfl
  | cons t rest ih =>
    rw [buildBuckets] at h
    rw [List.cons_append, buildBuckets]
    cases hd : pushBucket st.departuresByMinute (minutesSinceMidnight t.started_at) t with
    | none => rw [hd] at h; cases h
    | some dep =>
      rw [hd] at h
      cases ha : pushBucket st.arrivalsByMinute (minutesSinceMidnight t.ended_at) t with
      | none => rw [ha] at h; cases h
      | some arr =>
        rw [ha] at h
        exact ih ⟨dep, arr⟩ h

/-- A valid timestamp pushes successfully into a 1440-slot table. -/
lemma pushBucket_some_of_valid (tbl : List (List Trip)) (d : JSDate) (t : Trip)
    (hl : tbl.length = 1440) (h : validMinute d = true) :
    ∃ i, minutesSinceMidnight d = some i ∧ i < 1440 ∧
      pushBucket tbl (minutesSinceMidnight d) t =
        some (tbl.set i (tbl.getD i [] ++ [t])) := by
  cases d with
  | invalid => simp [validMinute, minutesSinceMidnight] at h
  | time hh mm =>
    have hlt : hh * 60 + mm < 1440 := by
      simpa [validMinute, minutesSinceMidnight] using h
    refine ⟨hh * 60 + mm, rfl, hlt, ?_⟩
    show pushBucket tbl (some (hh * 60 + mm)) t = _
    simp only [pushBucket]
    rw [if_pos (by omega)]

/-- An invalid timestamp makes the push on a 1440-slot table raise. -/
lemma pushBucket_none_of_invalid (tbl : List (List Trip)) (d : JSDate) (t : Trip)
    (hl : tbl.length = 1440) (h : validMinute d = false) :
    pushBucket tbl (minutesSinceMidnight d) t = none := by
  cases d with
  | invalid => rfl
  | time hh mm =>
    have hge : ¬ hh * 60 + mm < 1440 := by
      simpa [validMinute, minutesSinceMidnight] using h
    simp [pushBucket, minutesSinceMidnight, hl, hge]

/-- After a successful run over valid trips, slot `i` of each table holds its
previous contents followed by exactly the processed trips whose respective
minute is `i`, in input order. -/
lemma buildBuckets_ok_getD (trips : List Trip) (st : BucketState)
    (hv : ∀ t ∈ trips, validTrip t = true)
    (hd : st.departuresByMinute.length = 1440)
    (ha : st.arrivalsByMinute.length = 1440) :
    ∃ st', buildBuckets trips st = .ok st' ∧
      st'.departuresByMinute.length = 1440 ∧
      st'.arrivalsByMinute.length = 1440 ∧
      (∀ i, i < 1440 →
        st'.departuresByMinute.getD i [] = st.departuresByMinute.getD i [] ++
          trips.filter fun t => minutesSinceMidnight t.started_at = some i) ∧
      (∀ i, i < 1440 →
        st'.arrivalsByMinute.getD i [] = st.arrivalsByMinute.getD i [] ++
          trips.filter fun t => minutesSinceMidnight t.ended_at = some i) := by
  induction trips generalizing st with
  | nil => exact ⟨st, rfl, hd, ha, by simp, by simp⟩
  | cons t rest ih =>
    have hvt : validTrip t = true := hv t (List.mem_cons_self t rest)
    have hv1 : validMinute t.started_at = true := by
      have := hvt
      rw [validTrip, Bool.and_eq_true] at this
      exact this.1
    have hv2 : validMinute t.ended_at = true := by
      have := hvt
      rw [validTrip, Bool.and_eq_true] at this
      exact this.2
    obtain ⟨i0, hmi0, hi0, hpush1⟩ :=
      pushBucket_some_of_valid st.departuresByMinute t.started_at t hd hv1
    obtain ⟨j0, hmj0, hj0, hpush2⟩ :=
      pushBucket_some_of_valid st.arrivalsByMinute t.ended_at t ha hv2
    set dep := st.departuresByMinute.set i0 (st.departuresByMinute.getD i0 [] ++ [t])
      with hdep
    set arr := st.arrivalsByMinute.set j0 (st.arrivalsByMinute.getD j0 [] ++ [t])
      with harr
    have hdl : dep.length = 1440 := by rw [hdep, List.length_set]; exact hd
    have hal : arr.length = 1440 := by rw [harr, List.length_set]; exact ha
    obtain ⟨st', hok, hl1, hl2, hD, hA⟩ :=
      ih ⟨dep, arr⟩ (fun u hu => hv u (List.mem_cons_of_mem t hu)) hdl hal
    refine ⟨st', ?_, hl1, hl2, ?_, ?_⟩
    · rw [buildBuckets, hpush1, hpush2]
      exact hok
    · intro i hi
      have hstep := hD i hi
      dsimp only at hstep
      by_cases hieq : i = i0
      · subst hieq
        have hget : dep.getD i [] = st.departuresByMinute.getD i [] ++ [t] := by
          rw [hdep, List.getD_eq_getElem _ _ (by rw [List.length_set]; omega),
            List.getElem_set_self]
        rw [hstep, hget, List.filter_cons_of_pos (by simp [hmi0]),
          List.append_assoc, List.singleton_append]
      · have hget : dep.getD i [] = st.departuresByMinute.getD i [] := by
          rw [hdep, List.getD_eq_getElem _ _ (by rw [List.length_set]; omega),
            List.getElem_set_ne (by omega), ← List.getD_eq_getElem _ _ (by omega)]
        rw [hstep, hget, List.filter_cons_of_neg (by simp [hmi0]; omega)]
    · intro j hj
      have hstep := hA j hj
      dsimp only at hstep
      by_cases hjeq : j = j0
      · subst hjeq
        have hget : arr.getD j [] = st.arrivalsByMinute.getD j [] ++ [t] := by
          rw [harr, List.getD_eq_getElem _ _ (by rw [List.length_set]; omega),
            List.getElem_set_self]
        rw [hstep, hget, List.filter_cons_of_pos (by simp [hmj0]),
          List.append_assoc, List.singleton_append]
      · have hget : arr.getD j [] = st.arrivalsByMinute.getD j [] := by
          rw [harr, List.getD_eq_getElem _ _ (by rw [List.length_set]; omega),
            List.getElem_set_ne (by omega), ← List.getD_eq_getElem _ _ (by omega)]
        rw [hstep, hget, List.filter_cons_of_neg (by simp [hmj0]; omega)]

/-- Slot `i` of a fresh 1440-slot table is empty. -/
lemma getD_replicate_nil (i : Nat) (hi : i < 1440) :
    (List.replicate 1440 ([] : List Trip)).getD i [] = [] := by
  rw [List.getD_eq_getElem _ _ (by simpa using hi), List.getElem_replicate]

/-- Any number of empty slots flattens to the empty list. -/
lemma flatten_replicate_nil_any (n : Nat) :
    (List.replicate n ([] : List Trip)).flatten = [] := by
  induction n with
  | zero => rfl
  | succ m ih => rw [List.replicate_succ, List.flatten_cons, List.nil_append, ih]

/-- A fresh 1440-slot table flattens to the empty list. -/
lemma flatten_replicate_nil : (List.replicate 1440 ([] : List Trip)).flatten = [] :=
  flatten_replicate_nil_any 1440

/-- C6: after the bucket-building pass runs over trips whose timestamps all
yield a valid minute-of-day, slot `i` of the departure table holds exactly the
trips whose start minute is `i`, slot `i` of the arrival table exactly the
trips whose end minute is `i`, and each flattened table is a permutation of
the trip list — every trip is bucketed exactly once per direction, so no
aggregation over disjoint bucket ranges can count a trip twice. -/
theorem bucketing_partition (trips : List Trip)
    (hv : ∀ t ∈ trips, validTrip t = true) :
    ∃ st, buildBuckets trips initState = .ok st ∧
      (∀ i, i < 1440 → st.departuresByMinute.getD i [] =
        trips.filter fun t => minutesSinceMidnight t.started_at = some i) ∧
      (∀ i, i < 1440 → st.arrivalsByMinute.getD i [] =
        trips.filter fun t => minutesSinceMidnight t.ended_at = some i) ∧
      st.departuresByMinute.flatten.Perm trips ∧
      st.arrivalsByMinute.flatten.Perm trips := by
  obtain ⟨st, hok, _, _, hD, hA⟩ := buildBuckets_ok_getD trips initState hv
    (by rw [show initState.departuresByMinute = List.replicate 1440 [] from rfl,
      List.length_replicate])
    (by rw [show initState.arrivalsByMinute = List.replicate 1440 [] from rfl,
      List.length_replicate])
  obtain ⟨hp1, hp2⟩ := buildBuckets_flatten_perm trips initState st hok
  rw [show initState.departuresByMinute = List.replicate 1440 [] from rfl,
    flatten_replicate_nil, List.nil_append] at hp1
  rw [show initState.arrivalsByMinute = List.replicate 1440 [] from rfl,
    flatten_replicate_nil, List.nil_append] at hp2
  refine ⟨st, hok, ?_, ?_, hp1, hp2⟩
  · intro i hi
    have h := hD i hi
    rw [show initState.departuresByMinute = List.replicate 1440 [] from rfl,
      getD_replicate_nil i hi, List.nil_append] at h
    exact h
  · intro i hi
    have h := hA i hi
    rw [show initState.arrivalsByMinute = List.replicate 1440 [] from rfl,
      getD_replicate_nil i hi, List.nil_append] at h
    exact h

/-- A trip leaving station A at 11:40 and arriving at station B at 11:45. -/
def wTrip : Trip := ⟨"A", "B", .time 11 40, .time 11 45⟩

/-- Witness for C6 at a one-trip dataset. -/
theorem bucketing_partition_witness :
    ∃ st, buildBuckets [wTrip] initState = .ok st ∧
      (∀ i, i < 1440 → st.departuresByMinute.getD i [] =
        [wTrip].filter fun t => minutesSinceMidnight t.started_at = some i) ∧
      (∀ i, i < 1440 → st.arrivalsByMinute.getD i [] =
        [wTrip].filter fun t => minutesSinceMidnight t.ended_at = some i) ∧
      st.departuresByMinute.flatten.Perm [wTrip] ∧
      st.arrivalsByMinute.flatten.Perm [wTrip] :=
  bucketing_partition [wTrip] (by decide)

/-- An invalid trip at the head of the loop raises, whatever follows it. -/
lemma buildBuckets_cons_invalid (bad : Trip) (rest : List Trip) (st : BucketState)
    (hd : st.departuresByMinute.length = 1440)
    (ha : st.arrivalsByMinute.length = 1440)
    (hbad : validTrip bad = false) :
    ∃ stBad, buildBuckets (bad :: rest) st = .thrown stBad ∧
      buildBuckets [bad] st = .thrown stBad := by
  cases hvs : validMinute bad.started_at with
  | false =>
    have hp := pushBucket_none_of_invalid st.departuresByMinute bad.started_at bad hd hvs
    exact ⟨st, by rw [buildBuckets, hp], by rw [buildBuckets, hp]⟩
  | true =>
    have hve : validMinute bad.ended_at = false := by
      cases hve : validMinute bad.ended_at
      · rfl
      · rw [validTrip, hvs, hve] at hbad
        simp at hbad
    obtain ⟨i, _, _, hpush⟩ :=
      pushBucket_some_of_valid st.departuresByMinute bad.started_at bad hd hvs
    have hp2 := pushBucket_none_of_invalid st.arrivalsByMinute bad.ended_at bad ha hve
    refine ⟨⟨st.departuresByMinute.set i (st.departuresByMinute.getD i [] ++ [bad]),
      st.arrivalsByMinute⟩, ?_, ?_⟩
    · rw [buildBuckets, hpush, hp2]
    · rw [buildBuckets, hpush, hp2]

/-- C7 (amended): when the trip list contains a trip whose timestamp does not
yield a valid minute-of-day, the bucket-building loop does not skip it: it
raises a `TypeError` at the first such trip and aborts the load, so the outcome
is the same whether or not further trips follow — the remaining trips are never
bucketed. -/
theorem bucketing_aborts_on_invalid (pre rest : List Trip) (bad : Trip)
    (hpre : ∀ t ∈ pre, validTrip t = true)
    (hbad : validTrip bad = false) :
    ∃ stBad, buildBuckets (pre ++ bad :: rest) initState = .thrown stBad ∧
      buildBuckets (pre ++ [bad]) initState = .thrown stBad := by
  obtain ⟨st, hok, hd, ha, _, _⟩ := buildBuckets_ok_getD pre initState hpre
    (by rw [show initState.departuresByMinute = List.replicate 1440 [] from rfl,
      List.length_replicate])
    (by rw [show initState.arrivalsByMinute = List.replicate 1440 [] from rfl,
      List.length_replicate])
  obtain ⟨stBad, h1, h2⟩ := buildBuckets_cons_invalid bad rest st hd ha hbad
  refine ⟨stBad, ?_, ?_⟩
  · rw [buildBuckets_append pre (bad :: rest) initState st hok]
    exact h1
  · rw [buildBuckets_append pre [bad] initState st hok]
    exact h2

/-- A trip whose start timestamp is unparsable. -/
def badTrip : Trip := ⟨"A", "B", .invalid, .time 1 0⟩

/-- A perfectly valid trip that follows the bad one. -/
def goodTrip : Trip := ⟨"A", "B", .time 2 0, .time 3 0⟩

/-- C7 counterexample: with a first trip whose start timestamp is unparsable,
the loop throws immediately instead of skipping it — the remaining valid trip
is never bucketed, so the load of the remaining trips is aborted. -/
theorem bucketing_skip_cex :
    buildBuckets [badTrip, goodTrip] initState = .thrown initState ∧
    goodTrip ∉ initState.departuresByMinute.flatten ∧
    goodTrip ∉ initState.arrivalsByMinute.flatten := by
  refine ⟨rfl, ?_, ?_⟩ <;> decide

/-- Witness for C7 at a concrete trip list. -/
theorem bucketing_aborts_on_invalid_witness :
    ∃ stBad, buildBuckets ([goodTrip] ++ badTrip :: [goodTrip]) initState =
        .thrown stBad ∧
      buildBuckets ([goodTrip] ++ [badTrip]) initState = .thrown stBad :=
  bucketing_aborts_on_invalid [goodTrip] [goodTrip] badTrip (by decide) (by decide)

/-! ### Counting lemmas for trip conservation -/

/-- Pointwise sum of two Nat-valued maps. -/
lemma sum_map_add {β : Type} (l : List β) (f g : β → Nat) :
    (l.map fun b => f b + g b).sum = (l.map f).sum + (l.map g).sum := by
  induction l with
  | nil => rfl
  | cons a tl ih =>
    simp only [List.map_cons, List.sum_cons, ih]
    omega

/-- Over a duplicate-free name list containing `a`, the indicator of `a` sums
to 1. -/
lemma sum_map_indicator (names : List String) (a : String) (hnd : names.Nodup)
    (ha : a ∈ names) :
    (names.map fun n => if a = n then (1 : Nat) else 0).sum = 1 := by
  induction names with
  | nil => simp at ha
  | cons n ns ih =>
    rw [List.nodup_cons] at hnd
    rcases List.mem_cons.mp ha with rfl | hmem
    · simp only [List.map_cons, List.sum_cons, if_pos rfl]
      have hzero : (ns.map fun m => if a = m then (1 : Nat) else 0).sum = 0 := by
        apply List.sum_eq_zero
        intro x hx
        rw [List.mem_map] at hx
        obtain ⟨m, hm, rfl⟩ := hx
        rw [if_neg]
        rintro rfl
        exact hnd.1 hm
      rw [hzero]
      simp
    · have hne : a ≠ n := by
        rintro rfl
        exact hnd.1 hmem
      simp only [List.map_cons, List.sum_cons, if_neg hne, ih hnd.2 hmem]

/-- Counting a list once per name of a duplicate-free name list that covers
all its keys counts every element exactly once. -/
lemma sum_counts_eq_length (xs : List Trip) (key : Trip → String)
    (names : List String) (hnd : names.Nodup)
    (hcov : ∀ t ∈ xs, key t ∈ names) :
    (names.map fun n => (xs.filter fun t => key t = n).length).sum = xs.length := by
  induction xs with
  | nil => simp
  | cons t rest ih =>
    have hrest := ih fun u hu => hcov u (List.mem_cons_of_mem t hu)
    have ht : key t ∈ names := hcov t (List.mem_cons_self t rest)
    have hsplit : ∀ n : String, ((t :: rest).filter fun u => key u = n).length
        = (if key t = n then (1 : Nat) else 0) +
          (rest.filter fun u => key u = n).length := by
      intro n
      by_cases h : key t = n
      · rw [List.filter_cons_of_pos (by simp [h]), if_pos h, List.length_cons]
        omega
      · rw [List.filter_cons_of_neg (by simp [h]), if_neg h]
        omega
    simp only [hsplit]
    rw [sum_map_add, sum_map_indicator names (key t) hnd ht, hrest, List.length_cons]
    omega

/-- C2: with bucket tables built by a completed bucket-building pass, and a
station list whose short names are distinct and cover every trip's start and
end station ids, the no-filter (`-1`) aggregation conserves trips: the
per-station departure counts sum to the total trip count, and so do the
per-station arrival counts. -/
theorem computeStationTraffic_total (trips : List Trip) (stations : List Station)
    (st : BucketState)
    (hb : buildBuckets trips initState = .ok st)
    (hnd : (stations.map Station.short_name).Nodup)
    (hdep : ∀ t ∈ trips, t.start_station_id ∈ stations.map Station.short_name)
    (harr : ∀ t ∈ trips, t.end_station_id ∈ stations.map Station.short_name) :
    ((computeStationTraffic st.departuresByMinute st.arrivalsByMinute stations
        (-1)).map StationWithTraffic.departures).sum = trips.length ∧
    ((computeStationTraffic st.departuresByMinute st.arrivalsByMinute stations
        (-1)).map StationWithTraffic.arrivals).sum = trips.length := by
  obtain ⟨hp1, hp2⟩ := buildBuckets_flatten_perm trips initState st hb
  rw [show initState.departuresByMinute = List.replicate 1440 [] from rfl,
    flatten_replicate_nil, List.nil_append] at hp1
  rw [show initState.arrivalsByMinute = List.replicate 1440 [] from rfl,
    flatten_replicate_nil, List.nil_append] at hp2
  have hmapD : (computeStationTraffic st.departuresByMinute st.arrivalsByMinute
        stations (-1)).map StationWithTraffic.departures
      = (stations.map Station.short_name).map fun n =>
          (st.departuresByMinute.flatten.filter fun t =>
            t.start_station_id = n).length := by
    rw [computeStationTraffic, List.map_map, List.map_map]
    rfl
  have hmapA : (computeStationTraffic st.departuresByMinute st.arrivalsByMinute
        stations (-1)).map StationWithTraffic.arrivals
      = (stations.map Station.short_name).map fun n =>
          (st.arrivalsByMinute.flatten.filter fun t =>
            t.end_station_id = n).length := by
    rw [computeStationTraffic, List.map_map, List.map_map]
    rfl
  constructor
  · rw [hmapD, sum_counts_eq_length st.departuresByMinute.flatten
      Trip.start_station_id (stations.map Station.short_name) hnd
      (fun t ht => hdep t (hp1.mem_iff.mp ht))]
    exact hp1.length_eq
  · rw [hmapA, sum_counts_eq_length st.arrivalsByMinute.flatten
      Trip.end_station_id (stations.map Station.short_name) hnd
      (fun t ht => harr t (hp2.mem_iff.mp ht))]
    exact hp2.length_eq

/-- The bucket tables after loading the single witness trip. -/
def wState : BucketState :=
  ⟨(List.replicate 1440 ([] : List Trip)).set 700 [wTrip],
   (List.replicate 1440 ([] : List Trip)).set 705 [wTrip]⟩

/-- Witness for C2 at a one-trip, two-station dataset. -/
theorem computeStationTraffic_total_witness :
    ((computeStationTraffic wState.departuresByMinute wState.arrivalsByMinute
        [⟨"A", 0, 0⟩, ⟨"B", 0, 0⟩] (-1)).map StationWithTraffic.departures).sum
      = [wTrip].length ∧
    ((computeStationTraffic wState.departuresByMinute wState.arrivalsByMinute
        [⟨"A", 0, 0⟩, ⟨"B", 0, 0⟩] (-1)).map StationWithTraffic.arrivals).sum
      = [wTrip].length :=
  computeStationTraffic_total [wTrip] [⟨"A", 0, 0⟩, ⟨"B", 0, 0⟩] wState rfl
    (by decide) (by decide) (by decide)

/-! ### Windowed counts are bounded by full-day counts -/

/-- The sum of a prefix of a Nat list is at most the full sum. -/
lemma sum_take_le (l : List Nat) (n : Nat) : (l.take n).sum ≤ l.sum := by
  conv_rhs => rw [← List.take_append_drop n l]
  rw [List.sum_append]
  omega

/-- The sum of a suffix of a Nat list is at most the full sum. -/
lemma sum_drop_le (l : List Nat) (n : Nat) : (l.drop n).sum ≤ l.sum := by
  conv_rhs => rw [← List.take_append_drop n l]
  rw [List.sum_append]
  omega

/-- A wrapped window's two non-overlapping parts sum to at most the whole. -/
lemma sum_drop_add_sum_take_le (l : List Nat) (mn mx : Nat) (h : mx ≤ mn) :
    (l.drop mn).sum + (l.take mx).sum ≤ l.sum := by
  have h1 : (l.take mn).take mx = l.take mx := by
    rw [List.take_take, Nat.min_eq_left h]
  have h2 : (l.take mx).sum ≤ (l.take mn).sum := by
    rw [← h1]
    exact sum_take_le _ _
  have h3 : (l.take mn).sum + (l.drop mn).sum = l.sum := by
    rw [← List.sum_append, List.take_append_drop]
  omega

/-- Any windowed query matches at most as many trips as the whole table. -/
lemma length_filter_filterByMinute_le (tbl : List (List Trip)) (minute : Int)
    (p : Trip → Bool) :
    ((filterByMinute tbl minute).filter p).length ≤
      (tbl.flatten.filter p).length := by
  rw [← List.countP_eq_length_filter, ← List.countP_eq_length_filter,
    filterByMinute]
  by_cases hm : minute = -1
  · rw [if_pos hm]
  · rw [if_neg hm]
    dsimp only
    by_cases hgt : ((minute - 60 + 1440).tmod 1440).toNat >
        ((minute + 60).tmod 1440).toNat
    · rw [if_pos hgt, List.flatten_append, List.countP_append,
        List.countP_flatten, List.countP_flatten, List.countP_flatten,
        List.map_drop, List.map_take]
      exact sum_drop_add_sum_take_le (tbl.map (List.countP p)) _ _ (by omega)
    · rw [if_neg hgt, List.countP_flatten, List.countP_flatten,
        List.map_drop, List.map_take]
      exact le_trans (sum_drop_le _ _) (sum_take_le _ _)

/-- C10: for every station list, every bucket tables, every station index and
every `centerMinute` in `[0, 1439]`, the departures, arrivals and totalTraffic
fields `computeStationTraffic` assigns under the windowed filter are each at
most the corresponding fields assigned under the no-filter sentinel `-1`. -/
theorem windowed_counts_le (dep arr : List (List Trip)) (stations : List Station)
    (c : Int) (h0 : 0 ≤ c) (h1 : c ≤ 1439) (i : Nat) (hi : i < stations.length) :
    ((computeStationTraffic dep arr stations c).getD i dummyRecord).departures ≤
      ((computeStationTraffic dep arr stations (-1)).getD i dummyRecord).departures ∧
    ((computeStationTraffic dep arr stations c).getD i dummyRecord).arrivals ≤
      ((computeStationTraffic dep arr stations (-1)).getD i dummyRecord).arrivals ∧
    ((computeStationTraffic dep arr stations c).getD i dummyRecord).totalTraffic ≤
      ((computeStationTraffic dep arr stations (-1)).getD i dummyRecord).totalTraffic := by
  have hD : ∀ tf : Int,
      (computeStationTraffic dep arr stations tf).getD i dummyRecord =
        { station := stations[i]
          departures := ((filterByMinute dep tf).filter fun d =>
            d.start_station_id = stations[i].short_name).length
          arrivals := ((filterByMinute arr tf).filter fun d =>
            d.end_station_id = stations[i].short_name).length
          totalTraffic := ((filterByMinute dep tf).filter fun d =>
              d.start_station_id = stations[i].short_name).length +
            ((filterByMinute arr tf).filter fun d =>
              d.end_station_id = stations[i].short_name).length } := by
    intro tf
    rw [computeStationTraffic]
    dsimp only
    rw [List.getD_eq_getElem _ _ (by simpa using hi), List.getElem_map]
  have hfiltD : filterByMinute dep (-1) = dep.flatten := rfl
  have hfiltA : filterByMinute arr (-1) = arr.flatten := rfl
  have hle1 := length_filter_filterByMinute_le dep c
    fun d => d.start_station_id = stations[i].short_name
  have hle2 := length_filter_filterByMinute_le arr c
    fun d => d.end_station_id = stations[i].short_name
  refine ⟨?_, ?_, ?_⟩
  · rw [hD c, hD (-1)]
    dsimp only
    rw [hfiltD]
    exact hle1
  · rw [hD c, hD (-1)]
    dsimp only
    rw [hfiltA]
    exact hle2
  · rw [hD c, hD (-1)]
    dsimp only
    rw [hfiltD, hfiltA]
    exact Nat.add_le_add hle1 hle2

/-- Witness for C10 at concrete tables, station list and minute. -/
theorem windowed_counts_le_witness :
    ((computeStationTraffic (List.replicate 1440 []) (List.replicate 1440 [])
        [⟨"A", 0, 0⟩] 700).getD 0 dummyRecord).departures ≤
      ((computeStationTraffic (List.replicate 1440 []) (List.replicate 1440 [])
        [⟨"A", 0, 0⟩] (-1)).getD 0 dummyRecord).departures ∧
    ((computeStationTraffic (List.replicate 1440 []) (List.replicate 1440 [])
        [⟨"A", 0, 0⟩] 700).getD 0 dummyRecord).arrivals ≤
      ((computeStationTraffic (List.replicate 1440 []) (List.replicate 1440 [])
        [⟨"A", 0, 0⟩] (-1)).getD 0 dummyRecord).arrivals ∧
    ((computeStationTraffic (List.replicate 1440 []) (List.replicate 1440 [])
        [⟨"A", 0, 0⟩] 700).getD 0 dummyRecord).totalTraffic ≤
      ((computeStationTraffic (List.replicate 1440 []) (List.replicate 1440 [])
        [⟨"A", 0, 0⟩] (-1)).getD 0 dummyRecord).totalTraffic :=
  windowed_counts_le (List.replicate 1440 []) (List.replicate 1440 [])
    [⟨"A", 0, 0⟩] 700 (by norm_num) (by norm_num) 0 (by norm_num)

end BikeTraffic
